import Mathlib

/-!
Shallow embedding of the restaurant-operations recipe module
(src/odoo-module/restaurant_operations/models/recipe.py).

The module defines three models over an ORM:
* Recipe (model restaurant.recipe): name, category, prep_time, serving_size,
  stored computed fields total_cost and cost_per_serving, notes, active,
  and a constraint on serving_size.
* RecipeIngredient (model restaurant.recipe.ingredient): recipe_id
  (ondelete cascade), product_id, quantity, uom_id, the stored related field
  unit_cost mirroring product_id.standard_price, and the stored computed
  field total_cost.
* RecipeInstruction (model restaurant.recipe.instruction): recipe_id
  (ondelete cascade), sequence, instruction, with default read order
  ascending by sequence.

Monetary and quantity values (Odoo Float fields) are modelled as rationals;
Odoo Integer fields as Int.  The ORM's persistence is modelled as a State of
four record lists; the ORM's recomputation of stored computed and related
fields after a mutation is the settle function, which reruns every compute
method in dependency order (related unit_cost, then ingredient total_cost,
then recipe total_cost, then recipe cost_per_serving), exactly mirroring the
declared api.depends chains.  A write that violates an api.constrains check
raises ValidationError, which aborts the transaction: the stored state is
left unchanged.
-/

namespace RestaurantOps

/-- The fixed category selection of the Recipe model. -/
inductive Category where
  | appetizer
  | sushi
  | sashimi
  | roll
  | dessert
  | beverage
  | other
deriving DecidableEq

/-- External product master data (product.product): only the fields the
module reads, standard_price and the default unit of measure uom_id. -/
structure Product where
  id : Nat
  standard_price : ℚ
  uom_id : Nat
deriving DecidableEq

/-- A row of model restaurant.recipe.  total_cost and cost_per_serving are
stored computed fields; the rest are user-writable. -/
structure Recipe where
  id : Nat
  name : String
  category : Category
  prep_time : Int
  serving_size : Int
  total_cost : ℚ
  cost_per_serving : ℚ
  notes : String
  active : Bool
deriving DecidableEq

/-- A row of model restaurant.recipe.ingredient.  unit_cost is a stored
related field (product_id.standard_price); total_cost is a stored computed
field. -/
structure RecipeIngredient where
  id : Nat
  recipe_id : Nat
  product_id : Nat
  quantity : ℚ
  uom_id : Nat
  unit_cost : ℚ
  total_cost : ℚ
deriving DecidableEq

/-- A row of model restaurant.recipe.instruction. -/
structure RecipeInstruction where
  id : Nat
  recipe_id : Nat
  sequence : Int
  instruction : String
deriving DecidableEq

/-- The persisted database state: product master data plus the three tables
of the module.  Each list holds the rows in insertion order. -/
structure State where
  products : List Product
  recipes : List Recipe
  ingredients : List RecipeIngredient
  instructions : List RecipeInstruction
deriving DecidableEq

/-- The ingredient rows belonging to a recipe (the one2many ingredient_ids). -/
def ingredientsOf (s : State) (rid : Nat) : List RecipeIngredient :=
  s.ingredients.filter (fun i => i.recipe_id == rid)

/-- The instruction rows belonging to a recipe (the one2many instruction_ids),
in raw storage order. -/
def instructionsOf (s : State) (rid : Nat) : List RecipeInstruction :=
  s.instructions.filter (fun t => t.recipe_id == rid)

/-- Product lookup by id. -/
def lookupProduct (s : State) (pid : Nat) : Option Product :=
  s.products.find? (fun p => p.id == pid)

/-- Recipe lookup by id. -/
def lookupRecipe (s : State) (rid : Nat) : Option Recipe :=
  s.recipes.find? (fun r => r.id == rid)

/-- Ingredient lookup by id. -/
def lookupIngredient (s : State) (iid : Nat) : Option RecipeIngredient :=
  s.ingredients.find? (fun i => i.id == iid)

/-- RecipeIngredient.unit_cost: the stored related field mirroring
product_id.standard_price.  The ORM recomputes it whenever the product link
or the linked product's standard_price changes; a dangling link leaves the
stored value in place. -/
def syncUnitCost (s : State) (i : RecipeIngredient) : RecipeIngredient :=
  match lookupProduct s i.product_id with
  | some p => { i with unit_cost := p.standard_price }
  | none => i

/-- RecipeIngredient._compute_total_cost:
ingredient.total_cost = ingredient.quantity * ingredient.unit_cost,
with api.depends on quantity and unit_cost. -/
def ingredientComputeTotalCost (i : RecipeIngredient) : RecipeIngredient :=
  { i with total_cost := i.quantity * i.unit_cost }

/-- Recipe._compute_total_cost:
recipe.total_cost = sum of ingredient.total_cost over ingredient_ids,
with api.depends on ingredient_ids.total_cost. -/
def recipeComputeTotalCost (s : State) (r : Recipe) : Recipe :=
  { r with total_cost := ((ingredientsOf s r.id).map (fun i => i.total_cost)).sum }

/-- Recipe._compute_cost_per_serving: total_cost / serving_size when
serving_size > 0, else 0.0; api.depends on total_cost and serving_size. -/
def recipeComputeCostPerServing (r : Recipe) : Recipe :=
  if r.serving_size > 0 then
    { r with cost_per_serving := r.total_cost / (r.serving_size : ℚ) }
  else
    { r with cost_per_serving := 0 }

/-- Recipe._check_serving_size (api.constrains on serving_size): raises
ValidationError when serving_size <= 0. -/
def checkServingSize (r : Recipe) : Except String Unit :=
  if r.serving_size ≤ 0 then
    Except.error "Serving size must be greater than 0"
  else
    Except.ok ()

/-- Stage one of the recomputation pass: on every ingredient row, recompute
the stored related field unit_cost and then the computed field total_cost
(which api.depends makes follow unit_cost). -/
def settleIngredients (s : State) : State :=
  { s with ingredients := s.ingredients.map (fun i => ingredientComputeTotalCost (syncUnitCost s i)) }

/-- Stage two of the recomputation pass: on every recipe row, recompute
total_cost from the (already recomputed) ingredient lines, then
cost_per_serving from total_cost and serving_size. -/
def settleRecipes (s : State) : State :=
  { s with recipes := s.recipes.map (fun r => recipeComputeCostPerServing (recipeComputeTotalCost s r)) }

/-- The ORM recomputation pass that runs before a transaction commits: all
stored related and computed fields are brought up to date in dependency
order, ingredient-level fields before recipe-level fields, exactly the
order forced by the declared api.depends chains. -/
def settle (s : State) : State :=
  settleRecipes (settleIngredients s)

/-- The user-writable fields of a Recipe write or create call (the vals
dict): a field is written exactly when its entry is some. -/
structure RecipeVals where
  name : Option String
  category : Option Category
  prep_time : Option Int
  serving_size : Option Int
  notes : Option String
  active : Option Bool
deriving DecidableEq

/-- A vals dict writing no field. -/
def emptyRecipeVals : RecipeVals :=
  { name := none, category := none, prep_time := none, serving_size := none,
    notes := none, active := none }

/-- Apply a vals dict to a recipe row: each present entry overwrites the
stored field. -/
def applyRecipeVals (r : Recipe) (v : RecipeVals) : Recipe :=
  { r with
    name := v.name.getD r.name
    category := v.category.getD r.category
    prep_time := v.prep_time.getD r.prep_time
    serving_size := v.serving_size.getD r.serving_size
    notes := v.notes.getD r.notes
    active := v.active.getD r.active }

/-- Odoo write on restaurant.recipe: the vals are applied to the addressed
row, stored computed fields are recomputed, and api.constrains checks fire
for each constrained field present in vals (here _check_serving_size when
serving_size is written).  An error aborts the whole transaction. -/
def writeRecipe (s : State) (rid : Nat) (v : RecipeVals) : Except String State :=
  let s1 := settle { s with recipes := s.recipes.map (fun r => if r.id == rid then applyRecipeVals r v else r) }
  match v.serving_size, lookupRecipe s1 rid with
  | some _, some r =>
      match checkServingSize r with
      | Except.ok _ => Except.ok s1
      | Except.error e => Except.error e
  | _, _ => Except.ok s1

/-- The transactional result of a write: a ValidationError rolls the
transaction back, so the stored state is the old one. -/
def commitWriteRecipe (s : State) (rid : Nat) (v : RecipeVals) : State :=
  (writeRecipe s rid v).toOption.getD s

/-- The new row built by an Odoo create call: missing vals entries take the
field defaults declared on the model (category other, prep_time 0,
serving_size 1, active True); stored computed fields start at 0 and are
filled by the recomputation pass. -/
def newRecipeRow (newId : Nat) (v : RecipeVals) : Recipe :=
  { id := newId
    name := v.name.getD ""
    category := v.category.getD Category.other
    prep_time := v.prep_time.getD 0
    serving_size := v.serving_size.getD 1
    total_cost := 0
    cost_per_serving := 0
    notes := v.notes.getD ""
    active := v.active.getD true }

/-- Odoo create on restaurant.recipe: the new row is inserted, computed
fields are computed, and api.constrains checks fire on the new row. -/
def createRecipe (s : State) (newId : Nat) (v : RecipeVals) : Except String State :=
  match checkServingSize (newRecipeRow newId v) with
  | Except.error e => Except.error e
  | Except.ok _ => Except.ok (settle { s with recipes := s.recipes ++ [newRecipeRow newId v] })

/-- The transactional result of a create: a ValidationError rolls the
transaction back, so the stored state is the old one. -/
def commitCreateRecipe (s : State) (newId : Nat) (v : RecipeVals) : State :=
  (createRecipe s newId v).toOption.getD s

/-- The user-writable fields of an ingredient write. -/
structure IngredientVals where
  product_id : Option Nat
  quantity : Option ℚ
  uom_id : Option Nat
deriving DecidableEq

/-- Apply an ingredient vals dict to an ingredient row. -/
def applyIngredientVals (i : RecipeIngredient) (v : IngredientVals) : RecipeIngredient :=
  { i with
    product_id := v.product_id.getD i.product_id
    quantity := v.quantity.getD i.quantity
    uom_id := v.uom_id.getD i.uom_id }

/-- Create an ingredient row on a recipe; stored derived fields are filled
by the recomputation pass. -/
def addIngredient (s : State) (newId rid pid : Nat) (qty : ℚ) (uom : Nat) : State :=
  settle { s with ingredients := s.ingredients ++
    [{ id := newId, recipe_id := rid, product_id := pid, quantity := qty,
       uom_id := uom, unit_cost := 0, total_cost := 0 }] }

/-- Delete an ingredient row; the owning recipe's computed fields are
recomputed. -/
def removeIngredient (s : State) (iid : Nat) : State :=
  settle { s with ingredients := s.ingredients.filter (fun i => !(i.id == iid)) }

/-- Write on an ingredient row (quantity, product link or unit of measure);
derived fields recompute before commit. -/
def writeIngredient (s : State) (iid : Nat) (v : IngredientVals) : State :=
  settle { s with ingredients := s.ingredients.map (fun i => if i.id == iid then applyIngredientVals i v else i) }

/-- Change a product's standard_price in the external master data; the
stored related field unit_cost on every ingredient line (and everything
downstream) recomputes before the operation completes. -/
def writeProductPrice (s : State) (pid : Nat) (price : ℚ) : State :=
  settle { s with products := s.products.map (fun p => if p.id == pid then { p with standard_price := price } else p) }

/-- Hard deletion of a recipe: the row is removed and, through
ondelete cascade on recipe_id of both child models, every ingredient row
and every instruction row owned by it is removed too. -/
def deleteRecipe (s : State) (rid : Nat) : State :=
  settle { s with
    recipes := s.recipes.filter (fun r => !(r.id == rid))
    ingredients := s.ingredients.filter (fun i => !(i.recipe_id == rid))
    instructions := s.instructions.filter (fun t => !(t.recipe_id == rid)) }

/-- The read order declared by _order = 'sequence' on the instruction model:
ascending by the sequence field. -/
def seqLe (a b : RecipeInstruction) : Prop :=
  a.sequence ≤ b.sequence

instance : DecidableRel seqLe :=
  fun a b => inferInstanceAs (Decidable (a.sequence ≤ b.sequence))

instance : IsTotal RecipeInstruction seqLe :=
  ⟨fun a b => Int.le_total a.sequence b.sequence⟩

instance : IsTrans RecipeInstruction seqLe :=
  ⟨fun _ _ _ h1 h2 => le_trans h1 h2⟩

/-- Reading back a recipe's instruction steps: the model declares
_order = 'sequence', so rows come back sorted ascending by sequence; ties
keep their storage (insertion) order, modelled by a stable sort. -/
def readInstructions (s : State) (rid : Nat) : List RecipeInstruction :=
  (instructionsOf s rid).insertionSort seqLe

/-! ### Consistency predicates (the invariants of the spec, as properties of
a state) -/

/-- I3: every ingredient line's total_cost is quantity * unit_cost. -/
@[reducible]
def ingredientTotalsConsistent (s : State) : Prop :=
  ∀ i ∈ s.ingredients, i.total_cost = i.quantity * i.unit_cost

/-- I2 / P2: every recipe's total_cost is the sum of the total_cost of its
current ingredient lines. -/
@[reducible]
def recipeTotalsConsistent (s : State) : Prop :=
  ∀ r ∈ s.recipes,
    r.total_cost = ((ingredientsOf s r.id).map (fun i => i.total_cost)).sum

/-- A recipe with no ingredient lines has total_cost 0. -/
@[reducible]
def emptyRecipesZeroCost (s : State) : Prop :=
  ∀ r ∈ s.recipes, ingredientsOf s r.id = [] → r.total_cost = 0

/-- I4 / P3: every recipe's cost_per_serving is total_cost / serving_size
when serving_size > 0, and 0.0 otherwise. -/
@[reducible]
def costPerServingConsistent (s : State) : Prop :=
  ∀ r ∈ s.recipes,
    (0 < r.serving_size → r.cost_per_serving = r.total_cost / (r.serving_size : ℚ)) ∧
    (r.serving_size ≤ 0 → r.cost_per_serving = 0)

/-- The stored related field invariant: every ingredient line's unit_cost
equals the standard_price of its currently linked product. -/
@[reducible]
def unitCostSynced (s : State) : Prop :=
  ∀ i ∈ s.ingredients, ∀ p, lookupProduct s i.product_id = some p →
    i.unit_cost = p.standard_price

/-- Every stored recipe has a non-negative prep_time. -/
@[reducible]
def prepTimesNonneg (s : State) : Prop :=
  ∀ r ∈ s.recipes, 0 ≤ r.prep_time

/-! ### A concrete example database (scenario 1 of the spec: Salmon Nigiri,
two ingredient lines, two instruction steps) -/

/-- An example recipe row, as stored before recomputation. -/
def exRecipe : Recipe :=
  { id := 1, name := "Salmon Nigiri", category := Category.sushi,
    prep_time := 10, serving_size := 2, total_cost := 0,
    cost_per_serving := 0, notes := "", active := true }

/-- An example database: two products, one recipe, two ingredient lines and
two instruction steps (the second step stored with the smaller sequence). -/
def exState : State :=
  { products := [⟨1, 20, 7⟩, ⟨2, 4, 8⟩]
    recipes := [exRecipe]
    ingredients := [⟨1, 1, 1, 1/5, 7, 0, 0⟩, ⟨2, 1, 2, 3/10, 8, 0, 0⟩]
    instructions := [⟨1, 1, 20, "Top the rice with salmon"⟩,
                     ⟨2, 1, 10, "Shape the rice"⟩] }

/-- A vals dict that only writes serving_size := 0 (an invalid value). -/
def exValsServingZero : RecipeVals :=
  { emptyRecipeVals with serving_size := some 0 }

/-- A vals dict that only writes prep_time := -5 (a negative value). -/
def exValsPrepNeg : RecipeVals :=
  { emptyRecipeVals with prep_time := some (-5) }

/-- A vals dict that only writes prep_time := 3. -/
def exValsPrepThree : RecipeVals :=
  { emptyRecipeVals with prep_time := some 3 }

/-! ### Projection lemmas for the compute methods -/

@[simp]
theorem syncUnitCost_id (s : State) (i : RecipeIngredient) :
    (syncUnitCost s i).id = i.id := by
  cases h : lookupProduct s i.product_id <;> simp [syncUnitCost, h]

@[simp]
theorem syncUnitCost_recipe_id (s : State) (i : RecipeIngredient) :
    (syncUnitCost s i).recipe_id = i.recipe_id := by
  cases h : lookupProduct s i.product_id <;> simp [syncUnitCost, h]

@[simp]
theorem syncUnitCost_product_id (s : State) (i : RecipeIngredient) :
    (syncUnitCost s i).product_id = i.product_id := by
  cases h : lookupProduct s i.product_id <;> simp [syncUnitCost, h]

@[simp]
theorem syncUnitCost_quantity (s : State) (i : RecipeIngredient) :
    (syncUnitCost s i).quantity = i.quantity := by
  cases h : lookupProduct s i.product_id <;> simp [syncUnitCost, h]

@[simp]
theorem syncUnitCost_uom_id (s : State) (i : RecipeIngredient) :
    (syncUnitCost s i).uom_id = i.uom_id := by
  cases h : lookupProduct s i.product_id <;> simp [syncUnitCost, h]

@[simp]
theorem ingredientComputeTotalCost_id (i : RecipeIngredient) :
    (ingredientComputeTotalCost i).id = i.id := rfl

@[simp]
theorem ingredientComputeTotalCost_recipe_id (i : RecipeIngredient) :
    (ingredientComputeTotalCost i).recipe_id = i.recipe_id := rfl

@[simp]
theorem ingredientComputeTotalCost_product_id (i : RecipeIngredient) :
    (ingredientComputeTotalCost i).product_id = i.product_id := rfl

@[simp]
theorem ingredientComputeTotalCost_quantity (i : RecipeIngredient) :
    (ingredientComputeTotalCost i).quantity = i.quantity := rfl

@[simp]
theorem ingredientComputeTotalCost_uom_id (i : RecipeIngredient) :
    (ingredientComputeTotalCost i).uom_id = i.uom_id := rfl

@[simp]
theorem ingredientComputeTotalCost_unit_cost (i : RecipeIngredient) :
    (ingredientComputeTotalCost i).unit_cost = i.unit_cost := rfl

@[simp]
theorem ingredientComputeTotalCost_total_cost (i : RecipeIngredient) :
    (ingredientComputeTotalCost i).total_cost = i.quantity * i.unit_cost := rfl

@[simp]
theorem recipeComputeTotalCost_id (s : State) (r : Recipe) :
    (recipeComputeTotalCost s r).id = r.id := rfl

@[simp]
theorem recipeComputeTotalCost_serving_size (s : State) (r : Recipe) :
    (recipeComputeTotalCost s r).serving_size = r.serving_size := rfl

@[simp]
theorem recipeComputeTotalCost_prep_time (s : State) (r : Recipe) :
    (recipeComputeTotalCost s r).prep_time = r.prep_time := rfl

@[simp]
theorem recipeComputeTotalCost_total_cost (s : State) (r : Recipe) :
    (recipeComputeTotalCost s r).total_cost
      = ((ingredientsOf s r.id).map (fun i => i.total_cost)).sum := rfl

@[simp]
theorem recipeComputeCostPerServing_id (r : Recipe) :
    (recipeComputeCostPerServing r).id = r.id := by
  unfold recipeComputeCostPerServing
  split <;> rfl

@[simp]
theorem recipeComputeCostPerServing_serving_size (r : Recipe) :
    (recipeComputeCostPerServing r).serving_size = r.serving_size := by
  unfold recipeComputeCostPerServing
  split <;> rfl

@[simp]
theorem recipeComputeCostPerServing_prep_time (r : Recipe) :
    (recipeComputeCostPerServing r).prep_time = r.prep_time := by
  unfold recipeComputeCostPerServing
  split <;> rfl

@[simp]
theorem recipeComputeCostPerServing_total_cost (r : Recipe) :
    (recipeComputeCostPerServing r).total_cost = r.total_cost := by
  unfold recipeComputeCostPerServing
  split <;> rfl

theorem recipeComputeCostPerServing_pos (r : Recipe) (h : 0 < r.serving_size) :
    (recipeComputeCostPerServing r).cost_per_serving
      = r.total_cost / (r.serving_size : ℚ) := by
  unfold recipeComputeCostPerServing
  rw [if_pos h]

theorem recipeComputeCostPerServing_nonpos (r : Recipe) (h : r.serving_size ≤ 0) :
    (recipeComputeCostPerServing r).cost_per_serving = 0 := by
  unfold recipeComputeCostPerServing
  rw [if_neg (by omega)]

@[simp]
theorem applyRecipeVals_id (r : Recipe) (v : RecipeVals) :
    (applyRecipeVals r v).id = r.id := rfl

@[simp]
theorem applyRecipeVals_serving_size (r : Recipe) (v : RecipeVals) :
    (applyRecipeVals r v).serving_size = v.serving_size.getD r.serving_size := rfl

/-! ### How settle acts on each table -/

theorem settle_products (s : State) : (settle s).products = s.products := rfl

theorem settle_instructions (s : State) :
    (settle s).instructions = s.instructions := rfl

theorem settle_ingredients (s : State) :
    (settle s).ingredients
      = s.ingredients.map (fun i => ingredientComputeTotalCost (syncUnitCost s i)) := rfl

theorem settle_recipes (s : State) :
    (settle s).recipes
      = s.recipes.map (fun r =>
          recipeComputeCostPerServing (recipeComputeTotalCost (settleIngredients s) r)) := rfl

/-! ### Consistency invariants of a settled state -/

theorem ingredientTotals_settle (s : State) : ingredientTotalsConsistent (settle s) := by
  intro i hi
  rw [settle_ingredients] at hi
  obtain ⟨i₀, _, rfl⟩ := List.mem_map.mp hi
  simp

theorem recipeTotals_settle (s : State) : recipeTotalsConsistent (settle s) := by
  intro r hr
  rw [settle_recipes] at hr
  obtain ⟨r₀, _, rfl⟩ := List.mem_map.mp hr
  simp [ingredientsOf, settle_ingredients, settleIngredients]

theorem costPerServing_settle (s : State) : costPerServingConsistent (settle s) := by
  intro r hr
  rw [settle_recipes] at hr
  obtain ⟨r₀, _, rfl⟩ := List.mem_map.mp hr
  constructor
  · intro hpos
    rw [recipeComputeCostPerServing_serving_size] at hpos
    rw [recipeComputeCostPerServing_pos _ hpos, recipeComputeCostPerServing_total_cost,
      recipeComputeCostPerServing_serving_size]
  · intro hnonpos
    rw [recipeComputeCostPerServing_serving_size] at hnonpos
    exact recipeComputeCostPerServing_nonpos _ hnonpos

theorem unitCost_settle (s : State) : unitCostSynced (settle s) := by
  intro i hi p hp
  rw [settle_ingredients] at hi
  obtain ⟨i₀, _, rfl⟩ := List.mem_map.mp hi
  have hpid : lookupProduct (settle s) (ingredientComputeTotalCost (syncUnitCost s i₀)).product_id
      = lookupProduct s i₀.product_id := by
    simp [lookupProduct, settle_products]
  rw [hpid] at hp
  simp [ingredientComputeTotalCost, syncUnitCost, hp]

/-! ### Fixed points of the compute methods and idempotence of the pass -/

theorem State.eq_of_fields (a b : State) (hp : a.products = b.products)
    (hr : a.recipes = b.recipes) (hi : a.ingredients = b.ingredients)
    (ht : a.instructions = b.instructions) : a = b := by
  cases a
  cases b
  simp_all

theorem ingredientComputeTotalCost_fixed (i : RecipeIngredient)
    (h : i.total_cost = i.quantity * i.unit_cost) :
    ingredientComputeTotalCost i = i := by
  obtain ⟨a, b, c, d, e, f, g⟩ := i
  simp only [ingredientComputeTotalCost]
  simp_all

theorem syncUnitCost_fixed (s : State) (i : RecipeIngredient)
    (h : ∀ p, lookupProduct s i.product_id = some p → i.unit_cost = p.standard_price) :
    syncUnitCost s i = i := by
  unfold syncUnitCost
  cases hp : lookupProduct s i.product_id with
  | none => rfl
  | some p =>
    have huc := h p hp
    obtain ⟨a, b, c, d, e, f, g⟩ := i
    simp_all

theorem ingredientRecompute_idem (s : State) (i : RecipeIngredient) :
    ingredientComputeTotalCost (syncUnitCost s (ingredientComputeTotalCost (syncUnitCost s i)))
      = ingredientComputeTotalCost (syncUnitCost s i) := by
  have h1 : syncUnitCost s (ingredientComputeTotalCost (syncUnitCost s i))
      = ingredientComputeTotalCost (syncUnitCost s i) := by
    apply syncUnitCost_fixed
    intro p hp
    rw [ingredientComputeTotalCost_product_id, syncUnitCost_product_id] at hp
    rw [ingredientComputeTotalCost_unit_cost]
    unfold syncUnitCost
    rw [hp]
  rw [h1]
  apply ingredientComputeTotalCost_fixed
  simp

theorem recipeComputeTotalCost_fixed (t : State) (r : Recipe)
    (h : r.total_cost = ((ingredientsOf t r.id).map (fun i => i.total_cost)).sum) :
    recipeComputeTotalCost t r = r := by
  obtain ⟨a, b, c, d, e, f, g, h8, h9⟩ := r
  simp only [recipeComputeTotalCost]
  simp_all

theorem recipeComputeCostPerServing_idem (r : Recipe) :
    recipeComputeCostPerServing (recipeComputeCostPerServing r)
      = recipeComputeCostPerServing r := by
  obtain ⟨a, b, c, d, e, f, g, h8, h9⟩ := r
  unfold recipeComputeCostPerServing
  by_cases he : (e > 0) <;> simp [he]

theorem recipeRecompute_idem (t u : State) (hiu : u.ingredients = t.ingredients) (r : Recipe) :
    recipeComputeCostPerServing (recipeComputeTotalCost u
      (recipeComputeCostPerServing (recipeComputeTotalCost t r)))
      = recipeComputeCostPerServing (recipeComputeTotalCost t r) := by
  have htc : recipeComputeTotalCost u
      (recipeComputeCostPerServing (recipeComputeTotalCost t r))
      = recipeComputeCostPerServing (recipeComputeTotalCost t r) := by
    apply recipeComputeTotalCost_fixed
    rw [recipeComputeCostPerServing_total_cost, recipeComputeTotalCost_total_cost,
      recipeComputeCostPerServing_id, recipeComputeTotalCost_id]
    simp [ingredientsOf, hiu]
  rw [htc, recipeComputeCostPerServing_idem]

theorem settleIngredients_settle (s : State) : settleIngredients (settle s) = settle s := by
  apply State.eq_of_fields
  · rfl
  · rfl
  · show (settle s).ingredients.map
        (fun i => ingredientComputeTotalCost (syncUnitCost (settle s) i))
        = (settle s).ingredients
    have hsync : ∀ i, syncUnitCost (settle s) i = syncUnitCost s i := by
      intro i
      unfold syncUnitCost lookupProduct
      rw [settle_products]
    rw [settle_ingredients s, List.map_map]
    have hcomp : ((fun i => ingredientComputeTotalCost (syncUnitCost (settle s) i)) ∘
        (fun i => ingredientComputeTotalCost (syncUnitCost s i)))
        = fun i => ingredientComputeTotalCost (syncUnitCost s i) := by
      funext i
      show ingredientComputeTotalCost (syncUnitCost (settle s)
        (ingredientComputeTotalCost (syncUnitCost s i))) = _
      rw [hsync]
      exact ingredientRecompute_idem s i
    rw [hcomp]
  · rfl

theorem settleRecipes_idem (t : State) : settleRecipes (settleRecipes t) = settleRecipes t := by
  apply State.eq_of_fields
  · rfl
  · show (settleRecipes t).recipes.map
        (fun r => recipeComputeCostPerServing (recipeComputeTotalCost (settleRecipes t) r))
        = (settleRecipes t).recipes
    have hrec : (settleRecipes t).recipes
        = t.recipes.map (fun r => recipeComputeCostPerServing (recipeComputeTotalCost t r)) := rfl
    rw [hrec, List.map_map]
    have hcomp : ((fun r => recipeComputeCostPerServing (recipeComputeTotalCost (settleRecipes t) r)) ∘
        (fun r => recipeComputeCostPerServing (recipeComputeTotalCost t r)))
        = fun r => recipeComputeCostPerServing (recipeComputeTotalCost t r) := by
      funext r
      exact recipeRecompute_idem t (settleRecipes t) rfl r
    rw [hcomp]
  · rfl
  · rfl

/-! ### Locating a recipe row through the recomputation pass and a write -/

theorem lookupRecipe_settle (t : State) (rid : Nat) :
    lookupRecipe (settle t) rid
      = (lookupRecipe t rid).map
          (fun r => recipeComputeCostPerServing (recipeComputeTotalCost (settleIngredients t) r)) := by
  unfold lookupRecipe
  rw [settle_recipes, List.find?_map]
  have hp : ((fun r => r.id == rid) ∘
      (fun r => recipeComputeCostPerServing (recipeComputeTotalCost (settleIngredients t) r)))
      = fun (r : Recipe) => r.id == rid := by
    funext r
    simp [Function.comp]
  rw [hp]

theorem find?_applyWrite (l : List Recipe) (rid : Nat) (v : RecipeVals) :
    List.find? (fun r => r.id == rid)
        (l.map (fun r => if r.id == rid then applyRecipeVals r v else r))
      = (List.find? (fun r => r.id == rid) l).map
          (fun r => if r.id == rid then applyRecipeVals r v else r) := by
  rw [List.find?_map]
  have hp : ((fun r => r.id == rid) ∘ (fun r => if r.id == rid then applyRecipeVals r v else r))
      = fun (r : Recipe) => r.id == rid := by
    funext r
    by_cases h : (r.id == rid) = true <;> simp [Function.comp, h]
  rw [hp]

theorem writeRecipe_cases (s : State) (rid : Nat) (v : RecipeVals) :
    writeRecipe s rid v
        = Except.ok (settle { s with
            recipes := s.recipes.map (fun r => if r.id == rid then applyRecipeVals r v else r) }) ∨
    writeRecipe s rid v = Except.error "Serving size must be greater than 0" := by
  dsimp only [writeRecipe]
  split
  · split
    · left
      rfl
    · right
      rename_i r hchk
      unfold checkServingSize at hchk
      split at hchk
      · injection hchk with hr
        rw [← hr]
      · exact absurd hchk (by simp)
  · left
    rfl

theorem writeRecipe_ok_eq (s : State) (rid : Nat) (v : RecipeVals) (t : State)
    (h : writeRecipe s rid v = Except.ok t) :
    t = settle { s with
        recipes := s.recipes.map (fun r => if r.id == rid then applyRecipeVals r v else r) } := by
  rcases writeRecipe_cases s rid v with hw | hw
  · rw [hw] at h
    exact (Except.ok.inj h).symm
  · rw [hw] at h
    exact absurd h (by simp)

/-! ### Further helper lemmas -/

theorem emptyZero_of_totals (t : State) (h : recipeTotalsConsistent t) :
    emptyRecipesZeroCost t := by
  intro r hr he
  rw [h r hr, he]
  rfl

theorem prepTimesNonneg_settle (u : State) (h : prepTimesNonneg u) :
    prepTimesNonneg (settle u) := by
  intro r hr
  rw [settle_recipes] at hr
  obtain ⟨r₀, hr₀, rfl⟩ := List.mem_map.mp hr
  simpa using h r₀ hr₀

theorem ingredientsOf_settle (u : State) (rid : Nat) :
    ingredientsOf (settle u) rid
      = (ingredientsOf u rid).map (fun i => ingredientComputeTotalCost (syncUnitCost u i)) := by
  unfold ingredientsOf
  rw [settle_ingredients, List.filter_map]
  have hp : ((fun i => i.recipe_id == rid) ∘
      fun i => ingredientComputeTotalCost (syncUnitCost u i))
      = fun (i : RecipeIngredient) => i.recipe_id == rid := by
    funext i
    simp [Function.comp]
  rw [hp]

/-! ### The claims -/

/-- C2: after any mutation of a recipe's ingredient lines (add, remove, or
edit of quantity / unit cost inputs) settles, every recipe's total_cost
equals the sum of total_cost over its current ingredient lines, and in
particular is 0 for a recipe with no ingredient lines. -/
theorem recipe_total_cost_aggregation (s : State) (nid rid pid uom iid : Nat)
    (qty : ℚ) (v : IngredientVals) :
    (recipeTotalsConsistent (addIngredient s nid rid pid qty uom)
      ∧ emptyRecipesZeroCost (addIngredient s nid rid pid qty uom)) ∧
    (recipeTotalsConsistent (removeIngredient s iid)
      ∧ emptyRecipesZeroCost (removeIngredient s iid)) ∧
    (recipeTotalsConsistent (writeIngredient s iid v)
      ∧ emptyRecipesZeroCost (writeIngredient s iid v)) :=
  ⟨⟨recipeTotals_settle _, emptyZero_of_totals _ (recipeTotals_settle _)⟩,
   ⟨recipeTotals_settle _, emptyZero_of_totals _ (recipeTotals_settle _)⟩,
   ⟨recipeTotals_settle _, emptyZero_of_totals _ (recipeTotals_settle _)⟩⟩

/-- C3: once recomputation settles (after any of the mutating operations),
every recipe's cost_per_serving equals total_cost / serving_size when
serving_size > 0, and equals 0.0 when serving_size <= 0. -/
theorem cost_per_serving_derived (s : State) (nid rid pid uom iid : Nat)
    (qty price : ℚ) (v : IngredientVals) :
    costPerServingConsistent (settle s) ∧
    costPerServingConsistent (addIngredient s nid rid pid qty uom) ∧
    costPerServingConsistent (removeIngredient s iid) ∧
    costPerServingConsistent (writeIngredient s iid v) ∧
    costPerServingConsistent (writeProductPrice s pid price) ∧
    costPerServingConsistent (deleteRecipe s rid) :=
  ⟨costPerServing_settle _, costPerServing_settle _, costPerServing_settle _,
   costPerServing_settle _, costPerServing_settle _, costPerServing_settle _⟩

/-- C4: after any mutation touching an ingredient line's quantity or
unit_cost settles (an edit of the line, a change of the linked product's
price, or any other recomputation), the line's total_cost equals
quantity * unit_cost. -/
theorem ingredient_line_total_cost (s : State) (iid pid : Nat)
    (v : IngredientVals) (price : ℚ) :
    ingredientTotalsConsistent (settle s) ∧
    ingredientTotalsConsistent (writeIngredient s iid v) ∧
    ingredientTotalsConsistent (writeProductPrice s pid price) :=
  ⟨ingredientTotals_settle _, ingredientTotals_settle _, ingredientTotals_settle _⟩

/-- C5: once an operation completes, every ingredient line's unit_cost
equals the standard_price of its currently linked product — both after a
write to the line (which may relink the product) and after a change of the
linked product's price. -/
theorem unit_cost_mirrors_product_price (s : State) (iid pid : Nat)
    (v : IngredientVals) (price : ℚ) :
    unitCostSynced (settle s) ∧
    unitCostSynced (writeIngredient s iid v) ∧
    unitCostSynced (writeProductPrice s pid price) :=
  ⟨unitCost_settle _, unitCost_settle _, unitCost_settle _⟩

/-- C6: deleting a Recipe removes every Ingredient line and every
Instruction step owned by it: afterwards no ingredient row and no
instruction row referencing the recipe is retrievable, and the recipe row
itself is gone. -/
theorem delete_recipe_cascades (s : State) (rid : Nat) :
    ingredientsOf (deleteRecipe s rid) rid = [] ∧
    instructionsOf (deleteRecipe s rid) rid = [] ∧
    lookupRecipe (deleteRecipe s rid) rid = none := by
  refine ⟨?_, ?_, ?_⟩
  · show ingredientsOf (settle { s with
        recipes := s.recipes.filter (fun r => !(r.id == rid))
        ingredients := s.ingredients.filter (fun i => !(i.recipe_id == rid))
        instructions := s.instructions.filter (fun t => !(t.recipe_id == rid)) }) rid = []
    rw [ingredientsOf_settle]
    have hnil : ingredientsOf { s with
        recipes := s.recipes.filter (fun r => !(r.id == rid))
        ingredients := s.ingredients.filter (fun i => !(i.recipe_id == rid))
        instructions := s.instructions.filter (fun t => !(t.recipe_id == rid)) } rid = [] := by
      unfold ingredientsOf
      rw [List.filter_eq_nil_iff]
      intro a ha
      have hq := (List.mem_filter.mp ha).2
      simp at hq ⊢
      exact hq
    rw [hnil]
    rfl
  · show instructionsOf (settle { s with
        recipes := s.recipes.filter (fun r => !(r.id == rid))
        ingredients := s.ingredients.filter (fun i => !(i.recipe_id == rid))
        instructions := s.instructions.filter (fun t => !(t.recipe_id == rid)) }) rid = []
    unfold instructionsOf
    rw [settle_instructions]
    rw [List.filter_eq_nil_iff]
    intro a ha
    have hq := (List.mem_filter.mp ha).2
    simp at hq ⊢
    exact hq
  · show lookupRecipe (settle { s with
        recipes := s.recipes.filter (fun r => !(r.id == rid))
        ingredients := s.ingredients.filter (fun i => !(i.recipe_id == rid))
        instructions := s.instructions.filter (fun t => !(t.recipe_id == rid)) }) rid = none
    rw [lookupRecipe_settle]
    have hnone : lookupRecipe { s with
        recipes := s.recipes.filter (fun r => !(r.id == rid))
        ingredients := s.ingredients.filter (fun i => !(i.recipe_id == rid))
        instructions := s.instructions.filter (fun t => !(t.recipe_id == rid)) } rid = none := by
      unfold lookupRecipe
      rw [List.find?_eq_none]
      intro a ha
      have hq := (List.mem_filter.mp ha).2
      simp at hq ⊢
      exact hq
    rw [hnone]
    rfl

/-- C7: reading back a recipe's instruction steps yields them sorted in
ascending order of sequence; the result is a permutation of the stored
steps, and steps with equal (or ordered) sequence keep their stable storage
order. -/
theorem instructions_read_sorted (s : State) (rid : Nat) :
    List.Sorted seqLe (readInstructions s rid) ∧
    List.Perm (readInstructions s rid) (instructionsOf s rid) ∧
    ∀ a b : RecipeInstruction, seqLe a b →
      List.Sublist [a, b] (instructionsOf s rid) →
      List.Sublist [a, b] (readInstructions s rid) := by
  refine ⟨List.sorted_insertionSort seqLe _, List.perm_insertionSort seqLe _, ?_⟩
  intro a b hab hsub
  exact List.pair_sublist_insertionSort hab hsub

/-- C8: the recomputation of the derived fields is idempotent — running the
full recompute pass a second time on the settled state changes nothing. -/
theorem recompute_idempotent (s : State) : settle (settle s) = settle s := by
  show settleRecipes (settleIngredients (settle s)) = settle s
  rw [settleIngredients_settle]
  show settleRecipes (settleRecipes (settleIngredients s)) = settleRecipes (settleIngredients s)
  exact settleRecipes_idem _

/-- C1: writing serving_size <= 0 to an existing recipe fails with the
ValidationError of _check_serving_size, whatever else the vals dict writes,
and the rolled-back transaction leaves the stored state (the recipe's
serving_size and all derived fields included) unchanged. -/
theorem serving_size_validation (s : State) (rid : Nat) (v : RecipeVals)
    (n : Int) (r₀ : Recipe)
    (hfind : lookupRecipe s rid = some r₀)
    (hv : v.serving_size = some n) (hn : n ≤ 0) :
    writeRecipe s rid v = Except.error "Serving size must be greater than 0" ∧
    commitWriteRecipe s rid v = s := by
  have hfind' : List.find? (fun r => r.id == rid) s.recipes = some r₀ := hfind
  have hid0 := List.find?_some hfind'
  have hid : (r₀.id == rid) = true := by simpa using hid0
  have hmod : lookupRecipe { s with
      recipes := s.recipes.map (fun r => if r.id == rid then applyRecipeVals r v else r) } rid
      = some (applyRecipeVals r₀ v) := by
    unfold lookupRecipe at hfind ⊢
    show List.find? _ (s.recipes.map _) = _
    rw [find?_applyWrite, hfind]
    have hideq : r₀.id = rid := by simpa using hid
    simp [hideq]
  have hlook : lookupRecipe (settle { s with
      recipes := s.recipes.map (fun r => if r.id == rid then applyRecipeVals r v else r) }) rid
      = some (recipeComputeCostPerServing (recipeComputeTotalCost
          (settleIngredients { s with
            recipes := s.recipes.map (fun r => if r.id == rid then applyRecipeVals r v else r) })
          (applyRecipeVals r₀ v))) := by
    rw [lookupRecipe_settle, hmod]
    rfl
  have hss : (recipeComputeCostPerServing (recipeComputeTotalCost
      (settleIngredients { s with
        recipes := s.recipes.map (fun r => if r.id == rid then applyRecipeVals r v else r) })
      (applyRecipeVals r₀ v))).serving_size = n := by
    rw [recipeComputeCostPerServing_serving_size, recipeComputeTotalCost_serving_size,
      applyRecipeVals_serving_size, hv]
    rfl
  have herr : writeRecipe s rid v = Except.error "Serving size must be greater than 0" := by
    dsimp only [writeRecipe]
    rw [hv, hlook]
    dsimp only []
    unfold checkServingSize
    rw [hss, if_pos hn]
  refine ⟨herr, ?_⟩
  unfold commitWriteRecipe
  rw [herr]
  rfl

/-- C1 witness: on the example database, a write setting serving_size to 0
on recipe 1 fails with the validation error and the stored state is
unchanged. -/
theorem serving_size_validation_witness :
    writeRecipe exState 1 exValsServingZero
        = Except.error "Serving size must be greater than 0" ∧
    commitWriteRecipe exState 1 exValsServingZero = exState :=
  serving_size_validation exState 1 exValsServingZero 0 exRecipe rfl rfl (by decide)

/-- C9 is false as stated: the code declares prep_time as a plain Integer
field with no constraint, so a write storing a negative prep_time succeeds;
on the example database, writing prep_time := -5 to recipe 1 commits and
the stored prep_time reads back as -5 < 0. -/
theorem prep_time_negative_stored :
    ((writeRecipe exState 1 exValsPrepNeg).toOption.bind
        (fun t => lookupRecipe t 1)).map (fun r => r.prep_time) = some (-5) := by
  rfl

/-- C9 (amended): prep_time carries no constraint; it is non-negative only
as long as the writes performed keep it so — creation defaults it to 0, and
any write or create whose vals stores only non-negative prep_time values
preserves non-negativity of every stored prep_time. -/
theorem prep_time_nonneg_preserved (s : State) (rid newId : Nat) (v : RecipeVals)
    (hs : prepTimesNonneg s) (hv : ∀ n, v.prep_time = some n → 0 ≤ n) :
    prepTimesNonneg (commitWriteRecipe s rid v) ∧
    prepTimesNonneg (commitCreateRecipe s newId v) := by
  constructor
  · unfold commitWriteRecipe
    rcases writeRecipe_cases s rid v with hw | hw
    · rw [hw]
      show prepTimesNonneg (settle _)
      apply prepTimesNonneg_settle
      intro r hr
      obtain ⟨r₀, hr₀, rfl⟩ := List.mem_map.mp hr
      by_cases hidr : (r₀.id == rid) = true
      · rw [if_pos hidr]
        show (0 : Int) ≤ (applyRecipeVals r₀ v).prep_time
        show (0 : Int) ≤ v.prep_time.getD r₀.prep_time
        cases hp : v.prep_time with
        | none => exact hs r₀ hr₀
        | some m => exact hv m hp
      · rw [if_neg hidr]
        exact hs r₀ hr₀
    · rw [hw]
      exact hs
  · unfold commitCreateRecipe createRecipe
    cases hc : checkServingSize (newRecipeRow newId v) with
    | error e =>
      exact hs
    | ok u =>
      show prepTimesNonneg (settle _)
      apply prepTimesNonneg_settle
      intro r hr
      rcases List.mem_append.mp hr with hmem | hmem
      · exact hs r hmem
      · rw [List.mem_singleton.mp hmem]
        show (0 : Int) ≤ v.prep_time.getD 0
        cases hp : v.prep_time with
        | none => exact le_refl 0
        | some m => exact hv m hp

/-- C9 amended witness: on the example database, a write storing
prep_time := 3 and a create with the same vals both keep every stored
prep_time non-negative. -/
theorem prep_time_nonneg_preserved_witness :
    prepTimesNonneg (commitWriteRecipe exState 1 exValsPrepThree) ∧
    prepTimesNonneg (commitCreateRecipe exState 2 exValsPrepThree) :=
  prep_time_nonneg_preserved exState 1 2 exValsPrepThree (by decide)
    (fun n hn => by
      simp [exValsPrepThree, emptyRecipeVals] at hn
      omega)

/-- C10: a create whose vals omit serving_size builds the new row with the
declared default serving_size = 1, which passes _check_serving_size, so a
creation with all defaults never raises the serving-size validation error. -/
theorem default_serving_size_valid (s : State) (newId : Nat) (v : RecipeVals)
    (hv : v.serving_size = none) :
    (newRecipeRow newId v).serving_size = 1 ∧
    checkServingSize (newRecipeRow newId v) = Except.ok () ∧
    createRecipe s newId v
      = Except.ok (settle { s with recipes := s.recipes ++ [newRecipeRow newId v] }) := by
  have h1 : (newRecipeRow newId v).serving_size = 1 := by
    show v.serving_size.getD 1 = 1
    rw [hv]
    rfl
  have h2 : checkServingSize (newRecipeRow newId v) = Except.ok () := by
    unfold checkServingSize
    rw [h1]
    rfl
  refine ⟨h1, h2, ?_⟩
  unfold createRecipe
  rw [h2]

/-- C10 witness: creating a recipe with an all-defaults vals dict on the
example database yields serving_size 1, passes the constraint and
succeeds. -/
theorem default_serving_size_valid_witness :
    (newRecipeRow 2 emptyRecipeVals).serving_size = 1 ∧
    checkServingSize (newRecipeRow 2 emptyRecipeVals) = Except.ok () ∧
    createRecipe exState 2 emptyRecipeVals
      = Except.ok (settle { exState with
          recipes := exState.recipes ++ [newRecipeRow 2 emptyRecipeVals] }) :=
  default_serving_size_valid exState 2 emptyRecipeVals rfl

end RestaurantOps
